import Mathlib

/-!
Verification of the gogitix workspace materializer and check runner.

The definitions below are a shallow embedding of `src/lib/workspace.go` and
`src/cmd/gogitix/main.go`.  External collaborators (git, the go tool, the
filesystem) are modelled as explicit inputs gathered in a `GitEnv` record;
their observable behaviour (diff output filtered by status letters, command
exit) follows the documented interfaces.  Pure Go library helpers
(`strings.Fields`, `strings.TrimSpace`, `path/filepath.Dir`, `path.Join`,
`strings.TrimPrefix`) are re-implemented structurally so that every
definition evaluates inside the kernel.
-/

namespace Gogitix

/-- Accumulator-based splitter over a character list: collects maximal runs of
non-whitespace characters, dropping empty tokens.  Models Go `strings.Fields`. -/
def fieldsAux : List Char → List Char → List String
  | [], acc => if acc.isEmpty then [] else [String.mk acc.reverse]
  | c :: cs, acc =>
    if c.isWhitespace then
      if acc.isEmpty then fieldsAux cs [] else String.mk acc.reverse :: fieldsAux cs []
    else fieldsAux cs (c :: acc)

/-- Go `strings.Fields`: split a string around runs of whitespace. -/
def goFields (s : String) : List String :=
  fieldsAux s.data []

/-- Go `strings.TrimSpace`: drop leading and trailing whitespace. -/
def trimChars (s : String) : String :=
  String.mk (((s.data.dropWhile Char.isWhitespace).reverse.dropWhile Char.isWhitespace).reverse)

/-- Boolean string "starts with" test, computed on the underlying character
lists (Go `strings.HasPrefix`). -/
def strStarts (pre s : String) : Bool :=
  pre.data.isPrefixOf s.data

/-- Go `strings.TrimPrefix`: drop `pre` from the front of `s` when it is
present, otherwise return `s` unchanged. -/
def trimLeading (s pre : String) : String :=
  if strStarts pre s then String.mk (s.data.drop pre.data.length) else s

/-- Split a character list at every `/`, keeping empty segments (the
character-level core of splitting a path into its components). -/
def splitSlash : List Char → List Char → List (List Char)
  | [], acc => [acc.reverse]
  | c :: cs, acc =>
    if c == '/' then acc.reverse :: splitSlash cs [] else splitSlash cs (c :: acc)

/-- Go `path/filepath.Dir` restricted to the clean, slash-separated relative
paths that `git diff` reports: everything before the final separator, `"."`
when there is no separator. -/
def filepathDir (p : String) : String :=
  match (splitSlash p.data []).dropLast with
  | [] => "."
  | ps => String.intercalate "/" (ps.map String.mk)

/-- Go `path.Join` restricted to clean components: drop empty components and
join the rest with `/` (used for `path.Join(workDir, "src", rootPackage)`). -/
def pathJoin (parts : List String) : String :=
  String.intercalate "/" (parts.filter (fun p => p ≠ ""))

/-! ### Model of `git diff` output

A `Change` is one entry of the diff between the selected base and the target
state: a status letter (`A`dded, `C`opied, `D`eleted, `M`odified, `R`enamed)
and the affected path.  `git diff --name-only --diff-filter=<letters>` prints
exactly the paths of the changes whose status letter is in the filter;
`--name-status` prints status and path per line, and `getUpdatedDirs` keeps
the path column. -/

structure Change where
  status : Char
  path : String
deriving DecidableEq

/-- Status letters accepted by `--diff-filter=ACMR`. -/
def acmrStatuses : List Char := ['A', 'C', 'M', 'R']

/-- Status letters accepted by `--diff-filter=ACDMR`. -/
def acdmrStatuses : List Char := ['A', 'C', 'D', 'M', 'R']

/-- Paths reported by a `git diff` whose `--diff-filter` is `filt`. -/
def gitDiffNames (changes : List Change) (filt : List Char) : List String :=
  (changes.filter (fun c => filt.contains c.status)).map Change.path

/-! ### git command-line construction (workspace.go lines 158-174, 203-214) -/

/-- Argument list built by `getUpdatedFiles` (workspace.go lines 162-173):
`diff --name-only --diff-filter=ACMR`, then the base (the revision spec, or
`--cached`, or `HEAD`), then `--` and the path spec. -/
def getUpdatedFilesCmd (gitRoot : String) (pathSpec : List String)
    (gitRevSpec : String) (staging : Bool) : List String :=
  let diffCmd := ["diff", "--name-only", "--diff-filter=ACMR"]
  let diffCmd := diffCmd ++
    (if gitRevSpec ≠ "" then [gitRevSpec]
     else if staging then ["--cached"]
     else ["HEAD"])
  let diffCmd := diffCmd ++ ["--"] ++ pathSpec
  ["-C", gitRoot] ++ diffCmd

/-- Argument list built by `getLocallyChangedFiles` (workspace.go line 159):
a plain `diff --name-only --diff-filter=ACMR` with no base argument. -/
def getLocallyChangedFilesCmd (gitRoot : String) (pathSpec : List String) : List String :=
  ["-C", gitRoot, "diff", "--name-only", "--diff-filter=ACMR", "--"] ++ pathSpec

/-- Argument list built by `getUpdatedDirs` (workspace.go lines 204-213):
`diff --name-status --diff-filter=ACDMR`, then the same base selection as
`getUpdatedFiles`, then `--` and the path spec. -/
def getUpdatedDirsCmd (gitRoot : String) (pathSpec : List String)
    (gitRevSpec : String) (staging : Bool) : List String :=
  let diffCmd := ["diff", "--name-status", "--diff-filter=ACDMR"]
  let diffCmd := diffCmd ++
    (if gitRevSpec ≠ "" then [gitRevSpec]
     else if staging then ["--cached"]
     else ["HEAD"])
  let diffCmd := diffCmd ++ ["--"] ++ pathSpec
  ["-C", gitRoot] ++ diffCmd

/-! ### The three diff queries, at the level of reported paths -/

/-- `getUpdatedFiles` (workspace.go lines 162-173): the paths of the changes
against the selected base whose status passes `--diff-filter=ACMR`. -/
def getUpdatedFiles (baseChanges : List Change) : List String :=
  gitDiffNames baseChanges acmrStatuses

/-- `getLocallyChangedFiles` (workspace.go lines 158-160): the paths of the
working-tree-vs-index changes whose status passes `--diff-filter=ACMR`. -/
def getLocallyChangedFiles (indexChanges : List Change) : List String :=
  gitDiffNames indexChanges acmrStatuses

/-- The per-file path list `allFiles` that `getUpdatedDirs` extracts from its
`--name-status --diff-filter=ACDMR` report (workspace.go lines 214-219). -/
def getUpdatedDirsFiles (baseChanges : List Change) : List String :=
  gitDiffNames baseChanges acdmrStatuses

/-- Model of the `os.Stat(d)` existence probe of workspace.go line 227: the
on-disk state is the list of every path on which `os.Stat` succeeds — files
and directories alike, so a directory that still exists with no files left
inside it is representable — and the probe on `d` succeeds iff `d` is among
those paths. -/
def dirExistsOnDisk (pathsOnDisk : List String) (d : String) : Bool :=
  pathsOnDisk.contains d

/-- `getUpdatedDirs` (workspace.go lines 203-233): map every reported path to
its containing directory, deduplicate, and keep only the directories on
which the `os.Stat` existence probe succeeds. -/
def getUpdatedDirs (baseChanges : List Change) (pathsOnDisk : List String) : List String :=
  (((getUpdatedDirsFiles baseChanges).map filepathDir).dedup).filter
    (fun d => dirExistsOnDisk pathsOnDisk d)

/-! ### Package discovery (workspace.go lines 184-201) -/

/-- The relative directory that `getUpdatedPackages` derives from a package
identifier: strip the `rootPackage/` prefix; the root package itself maps to
the `"."` placeholder. -/
def dirNameOf (rootPackage p : String) : String :=
  let dirName := trimLeading p (rootPackage ++ "/")
  if dirName == rootPackage then "." else dirName

/-- `getUpdatedPackages` (workspace.go lines 184-201): of the full package
listing of the effective root (the `go list ./...` output), keep exactly the
packages whose derived relative directory is an updated directory.  The
`utils.StrMap`/`utils.StrKeys` set round-trip of the original is modelled as
a filter. -/
def getUpdatedPackages (rootPackage : String) (packages : List String)
    (updatedDirs : List String) : List String :=
  packages.filter (fun p => updatedDirs.contains (dirNameOf rootPackage p))

/-! ### Sorting and tree reduction

`utils.SortStrings` and `utils.ShortestPrefixes` live outside the excerpted
sources. -/

/-- Modelled from the spec: `utils.SortStrings` sorts a string list into
ascending lexicographic order (the `Workspace` field docs mark every list
field "(sorted)"). -/
def sortStrings (l : List String) : List String :=
  List.insertionSort (· ≤ ·) l

/-- Whether `a` is a strict prefix-ancestor of the directory `b`. -/
def isStrictPathAncestor (a b : String) : Bool :=
  a ≠ b && (a == "." || strStarts (a ++ "/") b)

/-- Modelled from the spec: `utils.ShortestPrefixes` keeps the minimal set of
directories, i.e. those with no strict prefix-ancestor among the input. -/
def shortestPrefixes (dirs : List String) : List String :=
  dirs.filter (fun d => !(dirs.any (fun e => isStrictPathAncestor e d)))

/-! ### Workspace (workspace.go lines 20-30) and Close (lines 176-181) -/

structure Workspace where
  GitDir : String
  WorkDir : String
  RootDir : String
  UpdatedDirs : List String
  UpdatedTrees : List String
  UpdatedFiles : List String
  UpdatedPackages : List String
  LocallyChangedFiles : List String
  deleteOnClose : Bool
deriving Inhabited

/-- Whether the path `f` equals `dir` or lies inside the tree rooted at `dir`. -/
def pathWithin (dir f : String) : Bool :=
  f == dir || strStarts (dir ++ "/") f

/-- Model of `os.RemoveAll(dir)` on a filesystem viewed as a list of paths:
every path inside the tree rooted at `dir` disappears. -/
def removeAll (fs : List String) (dir : String) : List String :=
  fs.filter (fun f => !(pathWithin dir f))

/-- `Close` (workspace.go lines 176-181), as a filesystem transformer: remove
the whole `WorkDir` tree when `deleteOnClose` is set, otherwise do nothing. -/
def Workspace.Close (ws : Workspace) (fs : List String) : List String :=
  if ws.deleteOnClose then removeAll fs ws.WorkDir else fs

/-! ### Start (workspace.go lines 32-157) -/

/-- The observable behaviour of the external collaborators consumed by one
`Start` invocation. -/
structure GitEnv where
  /-- stdout of `go list -e .` run in the git root (workspace.go line 35). -/
  goListRootOut : String
  /-- the temporary directory path `ioutil.TempDir` yields, after
  `filepath.EvalSymlinks` (workspace.go lines 40-45). -/
  tmpDir : String
  /-- whether `which go-lndir` succeeds (workspace.go line 92). -/
  goLndirAvailable : Bool
  /-- whether `which lndir` succeeds (workspace.go line 95). -/
  lndirAvailable : Bool
  /-- stdout of `git rev-list <revSpec>` (workspace.go line 104). -/
  revListOut : String
  /-- the changes between the selected diff base and the target state,
  underlying the updated-files and updated-dirs queries. -/
  baseChanges : List Change
  /-- the working-tree-vs-index changes, underlying the locally-changed
  query. -/
  indexChanges : List Change
  /-- the package identifiers listed by `go list ./...` in the effective
  root (workspace.go line 185). -/
  packagesOut : List String
  /-- the paths (files and directories) existing on disk while
  `getUpdatedDirs` probes `os.Stat`. -/
  pathsOnDisk : List String

/-- How `Start` materialized the effective root. -/
inductive MatAction where
  /-- no isolation: checks run against the original tree. -/
  | noIsolation
  /-- `git checkout <sha> -- .` of the most recent commit of the range
  (workspace.go line 112). -/
  | checkoutRev (sha : String)
  /-- shadow copy via `go-lndir`/`lndir` plus the two overwrite passes
  (workspace.go lines 114-130). -/
  | lndirShadow (tool : String)
  /-- `git checkout-index -a` of the whole index (workspace.go line 132). -/
  | fullIndexCheckout
deriving DecidableEq, Inhabited

/-- Outcome of `Start`: a populated workspace, or one of the fatal aborts. -/
inductive StartResult where
  /-- successful return, recording the materialization that happened and
  whether a temporary directory was allocated. -/
  | ok (ws : Workspace) (action : MatAction) (tempDirCreated : Bool)
  /-- `log.Fatalf` when `git rev-list` printed nothing (workspace.go line 106). -/
  | fatalNoShas
  /-- the `strings.Fields(shas)[0]` index panic when the rev-list output is
  whitespace only (workspace.go line 108). -/
  | panicEmptyRevList
  /-- `Failf` when a link strategy was requested but neither `go-lndir` nor
  `lndir` is installed (workspace.go line 98). -/
  | failNoLndirTool
deriving Inhabited

def StartResult.isOk : StartResult → Bool
  | .ok _ _ _ => true
  | _ => false

def StartResult.getWs : StartResult → Workspace
  | .ok ws _ _ => ws
  | _ => default

def StartResult.getAction : StartResult → MatAction
  | .ok _ action _ => action
  | _ => default

def StartResult.getTempCreated : StartResult → Bool
  | .ok _ _ tempDirCreated => tempDirCreated
  | _ => false

/-- Link-tool selection (workspace.go lines 88-100): `lndir` stays `""` when
no link strategy was requested; otherwise prefer `go-lndir`, fall back to
`lndir`, and abort with `Failf` (`none`) when neither is installed. -/
def lndirTool (env : GitEnv) (useLndir : Bool) : Option String :=
  if useLndir then
    if env.goLndirAvailable then some "go-lndir"
    else if env.lndirAvailable then some "lndir"
    else none
  else some ""

/-- Directory setup of `Start` (workspace.go lines 32-52): `workDir` and
`rootDir` both start at the git root; only when a revision spec or staging
asks for isolation is a temporary directory allocated, with the effective
root at `workDir/src/<rootPackage>`.  Returns
`(workDir, rootDir, tempDirCreated)`. -/
def startDirs (env : GitEnv) (gitRoot rootPackage gitRevSpec : String)
    (staging : Bool) : String × String × Bool :=
  let workDir := gitRoot
  let rootDir := gitRoot
  if gitRevSpec ≠ "" || staging then
    let workDir := env.tmpDir
    let rootDir := pathJoin [workDir, "src", rootPackage]
    (workDir, rootDir, true)
  else
    (workDir, rootDir, false)

/-- The two ways the revision-spec branch of `Start` can abort the process. -/
inductive StartAbort where
  | fatalNoShas
  | panicEmptyRevList
deriving DecidableEq

def StartAbort.toResult : StartAbort → StartResult
  | .fatalNoShas => .fatalNoShas
  | .panicEmptyRevList => .panicEmptyRevList

/-- The materialization step of `Start` (workspace.go lines 102-134): with a
revision spec, check out the first SHA of the `git rev-list` output (fatal
when the output is empty, an index panic when it holds no fields); with plain
staging, shadow-link when a tool was selected, else check out the whole
index; otherwise do nothing. -/
def startMaterialize (env : GitEnv) (gitRevSpec : String) (staging : Bool)
    (lndir : String) : Except StartAbort MatAction :=
  if gitRevSpec ≠ "" then
    if env.revListOut.length == 0 then .error .fatalNoShas
    else
      match goFields env.revListOut with
      | [] => .error .panicEmptyRevList
      | mostRecentSha :: _ => .ok (.checkoutRev mostRecentSha)
  else if staging then
    if lndir ≠ "" then .ok (.lndirShadow lndir) else .ok .fullIndexCheckout
  else .ok .noIsolation

/-- The workspace record a successful `Start` returns (workspace.go lines
146-156): the five computed lists, each passed through `utils.SortStrings`,
and `deleteOnClose` set exactly when isolation was requested. -/
def startWorkspace (env : GitEnv) (gitRoot gitRevSpec : String)
    (staging : Bool) : Workspace :=
  let rootPackage := trimChars env.goListRootOut
  let dirs := startDirs env gitRoot rootPackage gitRevSpec staging
  let updatedDirs := getUpdatedDirs env.baseChanges env.pathsOnDisk
  { GitDir := gitRoot
    WorkDir := dirs.1
    RootDir := dirs.2.1
    UpdatedFiles := sortStrings (getUpdatedFiles env.baseChanges)
    UpdatedDirs := sortStrings updatedDirs
    UpdatedPackages := sortStrings (getUpdatedPackages rootPackage env.packagesOut updatedDirs)
    UpdatedTrees := sortStrings (shortestPrefixes updatedDirs)
    LocallyChangedFiles := sortStrings (getLocallyChangedFiles env.indexChanges)
    deleteOnClose := gitRevSpec ≠ "" || staging }

/-- `Start` (workspace.go lines 32-157). -/
def Start (env : GitEnv) (gitRoot : String) (pathSpec : List String)
    (useLndir : Bool) (gitRevSpec : String) (staging : Bool) : StartResult :=
  match lndirTool env useLndir with
  | none => .failNoLndirTool
  | some lndir =>
    match startMaterialize env gitRevSpec staging lndir with
    | .error a => a.toResult
    | .ok action =>
      .ok (startWorkspace env gitRoot gitRevSpec staging) action
        (startDirs env gitRoot (trimChars env.goListRootOut) gitRevSpec staging).2.2

/-! ### Check execution engine

Modelled from the spec: the check tree and its execution engine
(`lib.NewParser`/`lib.RunCheck`) are not among the excerpted sources; the
node variants and the evaluation rules below follow spec sections 3 and 4.3:
a leaf invokes its command through the executor; a serial group runs its
children in order and stops at the first child that produced an error; a
parallel group evaluates every child regardless of individual failures. -/

inductive Check where
  | leaf (name description command : String)
  | serial (children : List Check)
  | parallel (children : List Check)

/-- An executor maps a command to `none` (success) or `some err` (failure);
dry-run mode is the constant-`none` executor. -/
def Executor : Type := String → Option String

mutual

/-- Modelled from the spec (section 4.3): evaluate a check tree, returning
the list of commands invoked, in invocation order, together with the first
error produced (if any). -/
def runCheck (exec : Executor) : Check → List String × Option String
  | .leaf _ _ command => ([command], exec command)
  | .serial children => runSerial exec children
  | .parallel children => runParallel exec children

/-- Serial children run strictly in order; the first error short-circuits the
remaining siblings. -/
def runSerial (exec : Executor) : List Check → List String × Option String
  | [] => ([], none)
  | c :: rest =>
    match runCheck exec c with
    | (trace, some err) => (trace, some err)
    | (trace, none) =>
      let (traceRest, errRest) := runSerial exec rest
      (trace ++ traceRest, errRest)

/-- Parallel children all run to completion; the group reports the error of
the earliest failing child. -/
def runParallel (exec : Executor) : List Check → List String × Option String
  | [] => ([], none)
  | c :: rest =>
    let (trace, err) := runCheck exec c
    let (traceRest, errRest) := runParallel exec rest
    (trace ++ traceRest, (err.orElse fun _ => errRest))

end

/-! ### CLI flag handling (main.go lines 49-60)

The Go `flag` package registers a flag with its default value and hands back
a pointer into that storage; `flag.Parse` later overwrites the storage from
the command line.  `main.go` line 52 dereferences the pointer immediately at
registration time, before `flag.Parse` runs on line 60. -/

/-- The registration-time storage of `flag.Bool("lndir", false, ...)`. -/
def lndirFlagDefault : Bool := false

/-- The flag storage after `flag.Parse(argv)` ran: set when `-lndir` was
supplied on the command line. -/
def lndirFlagParsed (argv : List String) : Bool :=
  lndirFlagDefault || argv.contains "-lndir"

/-- The `useLndir` value `main` actually passes on (main.go lines 49-60): the
pointer returned by `flag.Bool` is dereferenced on line 52, before
`flag.Parse` on line 60 has read `argv`, so the local copy keeps the
registration-time storage and the later parse only updates the storage. -/
def mainUseLndir (argv : List String) : Bool :=
  let storage := lndirFlagDefault
  let useLndir := storage
  let _storage := lndirFlagParsed argv
  useLndir

/-- A small concrete environment used to witness the `Start` theorems: one
modified file, one deleted file, a two-commit rev-list, no link tool. -/
def envDemo : GitEnv :=
  { goListRootOut := " ex.com/r\n"
    tmpDir := "/tmp/w"
    goLndirAvailable := false
    lndirAvailable := false
    revListOut := "abc def\n"
    baseChanges := [⟨'M', "a/b.go"⟩, ⟨'D', "c/d.go"⟩]
    indexChanges := [⟨'M', "a/b.go"⟩]
    packagesOut := ["ex.com/r/a"]
    pathsOnDisk := ["a", "a/b.go"] }

/-! ## Helper lemmas -/

theorem sortStrings_sorted (l : List String) : (sortStrings l).Sorted (· ≤ ·) :=
  List.sorted_insertionSort _ l

theorem abort_not_ok (a : StartAbort) : a.toResult.isOk = false := by
  cases a <;> rfl

theorem start_cases (env : GitEnv) (gitRoot : String) (ps : List String)
    (ul : Bool) (rs : String) (st : Bool) :
    (lndirTool env ul = none ∧ Start env gitRoot ps ul rs st = .failNoLndirTool) ∨
    (∃ lndir a, lndirTool env ul = some lndir ∧
      startMaterialize env rs st lndir = .error a ∧
      Start env gitRoot ps ul rs st = a.toResult) ∨
    (∃ lndir action, lndirTool env ul = some lndir ∧
      startMaterialize env rs st lndir = .ok action ∧
      Start env gitRoot ps ul rs st =
        .ok (startWorkspace env gitRoot rs st) action
          (startDirs env gitRoot (trimChars env.goListRootOut) rs st).2.2) := by
  unfold Start
  cases hl : lndirTool env ul with
  | none => exact Or.inl ⟨rfl, rfl⟩
  | some lndir =>
    dsimp only
    cases hm : startMaterialize env rs st lndir with
    | error a => exact Or.inr (Or.inl ⟨lndir, a, rfl, hm, rfl⟩)
    | ok action => exact Or.inr (Or.inr ⟨lndir, action, rfl, hm, rfl⟩)

theorem start_ok_elim (env : GitEnv) (gitRoot : String) (ps : List String)
    (ul : Bool) (rs : String) (st : Bool)
    (h : (Start env gitRoot ps ul rs st).isOk = true) :
    ∃ action,
      Start env gitRoot ps ul rs st =
        .ok (startWorkspace env gitRoot rs st) action
          (startDirs env gitRoot (trimChars env.goListRootOut) rs st).2.2 := by
  rcases start_cases env gitRoot ps ul rs st with ⟨_, heq⟩ | ⟨_, a, _, _, heq⟩ |
    ⟨_, action, _, _, heq⟩
  · rw [heq] at h; exact Bool.noConfusion h
  · rw [heq] at h; rw [abort_not_ok] at h; exact Bool.noConfusion h
  · exact ⟨action, heq⟩

theorem startDirs_isolating (env : GitEnv) (gitRoot rootPackage rs : String)
    (st : Bool) (h : rs ≠ "" ∨ st = true) :
    startDirs env gitRoot rootPackage rs st =
      (env.tmpDir, pathJoin [env.tmpDir, "src", rootPackage], true) := by
  rcases h with h | h
  · simp [startDirs, h]
  · subst h; simp [startDirs]

theorem startDirs_plain (env : GitEnv) (gitRoot rootPackage rs : String)
    (st : Bool) (h1 : rs = "") (h2 : st = false) :
    startDirs env gitRoot rootPackage rs st = (gitRoot, gitRoot, false) := by
  subst h1; subst h2; simp [startDirs]

/-! ## Claim theorems -/

/-- C1: the changed-files diff takes its base from the revision spec when the
spec is non-empty, else from the index (`--cached`) when staging, else from
`HEAD`; the locally-changed-files query always issues a plain `git diff` with
no base argument, comparing working tree against index. -/
theorem c1_diff_base_selection (gitRoot : String) (pathSpec : List String)
    (gitRevSpec : String) (staging : Bool) :
    getUpdatedFilesCmd gitRoot pathSpec gitRevSpec staging =
      ["-C", gitRoot, "diff", "--name-only", "--diff-filter=ACMR",
        (if gitRevSpec ≠ "" then gitRevSpec else if staging then "--cached" else "HEAD"),
        "--"] ++ pathSpec ∧
    getLocallyChangedFilesCmd gitRoot pathSpec =
      ["-C", gitRoot, "diff", "--name-only", "--diff-filter=ACMR", "--"] ++ pathSpec := by
  refine ⟨?_, rfl⟩
  by_cases h : gitRevSpec = "" <;> cases staging <;> simp [getUpdatedFilesCmd, h]

/-- C4: package discovery returns a subset of the full package listing of the
effective root, and every returned package's derived relative directory (the
root package mapping to `"."`) is one of the updated directories. -/
theorem c4_packages_subset_and_mapped (rootPackage : String)
    (packages updatedDirs : List String) :
    (∀ p ∈ getUpdatedPackages rootPackage packages updatedDirs, p ∈ packages) ∧
    (∀ p ∈ getUpdatedPackages rootPackage packages updatedDirs,
      dirNameOf rootPackage p ∈ updatedDirs) := by
  constructor <;> intro p hp
  · exact (List.mem_filter.mp hp).1
  · have hc := (List.mem_filter.mp hp).2
    simpa using hc

/-- Witness for C4 at a concrete listing. -/
theorem c4_packages_subset_and_mapped_witness :
    (∀ p ∈ getUpdatedPackages "ex.com/r" ["ex.com/r/a", "ex.com/r/b"] ["a"],
      p ∈ ["ex.com/r/a", "ex.com/r/b"]) ∧
    (∀ p ∈ getUpdatedPackages "ex.com/r" ["ex.com/r/a", "ex.com/r/b"] ["a"],
      dirNameOf "ex.com/r" p ∈ ["a"]) :=
  c4_packages_subset_and_mapped "ex.com/r" ["ex.com/r/a", "ex.com/r/b"] ["a"]

/-- C5, counterexample to the claim as stated: the file `sub/only.go` is
deleted and no path remains on disk strictly under `sub`, yet the directory
`sub` itself still exists (an empty directory left behind by a plain `rm`),
so `os.Stat` succeeds and `sub` stays in the updated-directories set. -/
theorem c5_claim_counterexample :
    (∀ q ∈ ["sub"], strStarts ("sub" ++ "/") q = false) ∧
    "sub" ∈ getUpdatedDirs [⟨'D', "sub/only.go"⟩] ["sub"] :=
  ⟨by decide, by decide⟩

/-- C5, amended: a changed directory on which the `os.Stat` existence probe
fails at computation time (the directory itself no longer exists on disk,
as when git removes it together with its only changed file) is not an
element of the updated-directories set. -/
theorem c5_stat_failed_dir_dropped (baseChanges : List Change)
    (pathsOnDisk : List String) (d : String) (h : d ∉ pathsOnDisk) :
    d ∉ getUpdatedDirs baseChanges pathsOnDisk := by
  intro hd
  have hc := (List.mem_filter.mp hd).2
  simp only [dirExistsOnDisk] at hc
  exact h (by simpa using hc)

/-- Witness for the amended C5: `gone` was removed together with its only
changed file, its stat probe fails, and it is dropped. -/
theorem c5_stat_failed_dir_dropped_witness :
    ("gone" : String) ∉ ["keep", "keep/a.go"] ∧
    "gone" ∉ getUpdatedDirs [⟨'D', "gone/x.go"⟩] ["keep", "keep/a.go"] :=
  ⟨by decide,
    c5_stat_failed_dir_dropped [⟨'D', "gone/x.go"⟩] ["keep", "keep/a.go"] "gone" (by decide)⟩

theorem close_idem (ws : Workspace) (fs : List String) :
    ws.Close (ws.Close fs) = ws.Close fs := by
  unfold Workspace.Close
  split
  · simp [removeAll, List.filter_filter]
  · rfl

theorem goFields_of_len_zero (s : String) (h : s.length = 0) : goFields s = [] := by
  have hd : s.data = [] := List.length_eq_zero.mp h
  simp [goFields, hd, fieldsAux]

theorem startMaterialize_rev (env : GitEnv) (rs : String) (st : Bool)
    (lndir : String) (h : rs ≠ "") :
    startMaterialize env rs st lndir =
      (if env.revListOut.length == 0 then .error .fatalNoShas
       else
        match goFields env.revListOut with
        | [] => .error .panicEmptyRevList
        | mostRecentSha :: _ => .ok (.checkoutRev mostRecentSha)) := by
  simp [startMaterialize, h]

/-- C2: `Start` allocates a temporary directory and points the effective root
at `workDir/src/<rootPackage>` exactly when the revision spec is non-empty or
staging is true; in every other case the work directory and the effective
root both stay at the original git root and no temporary directory is
created. -/
theorem c2_isolation_iff (env : GitEnv) (gitRoot : String)
    (pathSpec : List String) (useLndir : Bool) (gitRevSpec : String)
    (staging : Bool)
    (h : (Start env gitRoot pathSpec useLndir gitRevSpec staging).isOk = true) :
    ((gitRevSpec ≠ "" ∨ staging = true) →
      (Start env gitRoot pathSpec useLndir gitRevSpec staging).getTempCreated = true ∧
      (Start env gitRoot pathSpec useLndir gitRevSpec staging).getWs.WorkDir = env.tmpDir ∧
      (Start env gitRoot pathSpec useLndir gitRevSpec staging).getWs.RootDir =
        pathJoin [env.tmpDir, "src", trimChars env.goListRootOut]) ∧
    ((gitRevSpec = "" ∧ staging = false) →
      (Start env gitRoot pathSpec useLndir gitRevSpec staging).getTempCreated = false ∧
      (Start env gitRoot pathSpec useLndir gitRevSpec staging).getWs.WorkDir = gitRoot ∧
      (Start env gitRoot pathSpec useLndir gitRevSpec staging).getWs.RootDir = gitRoot) := by
  obtain ⟨action, heq⟩ :=
    start_ok_elim env gitRoot pathSpec useLndir gitRevSpec staging h
  rw [heq]
  constructor
  · intro hiso
    have hdirs := startDirs_isolating env gitRoot (trimChars env.goListRootOut)
      gitRevSpec staging hiso
    refine ⟨?_, ?_, ?_⟩ <;>
      simp [StartResult.getTempCreated, StartResult.getWs, startWorkspace, hdirs]
  · rintro ⟨h1, h2⟩
    have hdirs := startDirs_plain env gitRoot (trimChars env.goListRootOut)
      gitRevSpec staging h1 h2
    refine ⟨?_, ?_, ?_⟩ <;>
      simp [StartResult.getTempCreated, StartResult.getWs, startWorkspace, hdirs]

/-- Witness for C2: an isolating run (revision spec `"rev"`). -/
theorem c2_isolation_iff_witness :
    ((Start envDemo "/repo" ["*.go"] false "rev" false).isOk = true) ∧
    ((("rev" : String) ≠ "" ∨ false = true) →
      (Start envDemo "/repo" ["*.go"] false "rev" false).getTempCreated = true ∧
      (Start envDemo "/repo" ["*.go"] false "rev" false).getWs.WorkDir = envDemo.tmpDir ∧
      (Start envDemo "/repo" ["*.go"] false "rev" false).getWs.RootDir =
        pathJoin [envDemo.tmpDir, "src", trimChars envDemo.goListRootOut]) ∧
    ((("rev" : String) = "" ∧ false = false) →
      (Start envDemo "/repo" ["*.go"] false "rev" false).getTempCreated = false ∧
      (Start envDemo "/repo" ["*.go"] false "rev" false).getWs.WorkDir = "/repo" ∧
      (Start envDemo "/repo" ["*.go"] false "rev" false).getWs.RootDir = "/repo") := by
  refine ⟨by decide, ?_⟩
  exact c2_isolation_iff envDemo "/repo" ["*.go"] false "rev" false (by decide)

/-- C6: after a successful `Start`, `Close` removes every path of the work
directory tree when isolation was performed, is the identity on the
filesystem when no isolation was performed, and is idempotent. -/
theorem c6_close_frame (env : GitEnv) (gitRoot : String)
    (pathSpec : List String) (useLndir : Bool) (gitRevSpec : String)
    (staging : Bool)
    (h : (Start env gitRoot pathSpec useLndir gitRevSpec staging).isOk = true) :
    ((gitRevSpec ≠ "" ∨ staging = true) →
      ∀ fs f,
        f ∈ (Start env gitRoot pathSpec useLndir gitRevSpec staging).getWs.Close fs →
        pathWithin (Start env gitRoot pathSpec useLndir gitRevSpec staging).getWs.WorkDir f
          = false) ∧
    ((gitRevSpec = "" ∧ staging = false) →
      ∀ fs,
        (Start env gitRoot pathSpec useLndir gitRevSpec staging).getWs.Close fs = fs) ∧
    (∀ fs,
      (Start env gitRoot pathSpec useLndir gitRevSpec staging).getWs.Close
        ((Start env gitRoot pathSpec useLndir gitRevSpec staging).getWs.Close fs) =
      (Start env gitRoot pathSpec useLndir gitRevSpec staging).getWs.Close fs) := by
  obtain ⟨action, heq⟩ :=
    start_ok_elim env gitRoot pathSpec useLndir gitRevSpec staging h
  rw [heq]
  refine ⟨?_, ?_, fun fs => close_idem _ fs⟩
  · intro hiso fs f hf
    have hdel : (startWorkspace env gitRoot gitRevSpec staging).deleteOnClose = true := by
      rcases hiso with h1 | h1
      · simp [startWorkspace, h1]
      · simp [startWorkspace, h1]
    rw [show (StartResult.ok (startWorkspace env gitRoot gitRevSpec staging) action
        (startDirs env gitRoot (trimChars env.goListRootOut) gitRevSpec staging).2.2).getWs
        = startWorkspace env gitRoot gitRevSpec staging from rfl] at hf ⊢
    rw [Workspace.Close, if_pos hdel] at hf
    have := (List.mem_filter.mp hf).2
    simpa using this
  · rintro ⟨h1, h2⟩ fs
    have hdel : (startWorkspace env gitRoot gitRevSpec staging).deleteOnClose = false := by
      simp [startWorkspace, h1, h2]
    rw [show (StartResult.ok (startWorkspace env gitRoot gitRevSpec staging) action
        (startDirs env gitRoot (trimChars env.goListRootOut) gitRevSpec staging).2.2).getWs
        = startWorkspace env gitRoot gitRevSpec staging from rfl]
    rw [Workspace.Close, if_neg (by simp [hdel])]

/-- Witness for C6: an isolating run (revision spec `"rev"`). -/
theorem c6_close_frame_witness :
    ((Start envDemo "/repo" ["*.go"] false "rev" false).isOk = true) ∧
    ((("rev" : String) ≠ "" ∨ false = true) →
      ∀ fs f, f ∈ (Start envDemo "/repo" ["*.go"] false "rev" false).getWs.Close fs →
        pathWithin (Start envDemo "/repo" ["*.go"] false "rev" false).getWs.WorkDir f
          = false) ∧
    ((("rev" : String) = "" ∧ false = false) →
      ∀ fs, (Start envDemo "/repo" ["*.go"] false "rev" false).getWs.Close fs = fs) ∧
    (∀ fs,
      (Start envDemo "/repo" ["*.go"] false "rev" false).getWs.Close
        ((Start envDemo "/repo" ["*.go"] false "rev" false).getWs.Close fs) =
      (Start envDemo "/repo" ["*.go"] false "rev" false).getWs.Close fs) := by
  refine ⟨by decide, ?_⟩
  exact c6_close_frame envDemo "/repo" ["*.go"] false "rev" false (by decide)

/-- C7: with a non-empty revision spec (and a usable link-tool selection),
`Start` checks out exactly the first entry of the `git rev-list` output — the
most recent commit of the range; when the range listing is empty the
construction aborts fatally and no workspace is returned. -/
theorem c7_revspec_checkout (env : GitEnv) (gitRoot : String)
    (pathSpec : List String) (useLndir : Bool) (gitRevSpec : String)
    (staging : Bool) (h : gitRevSpec ≠ "")
    (hl : (lndirTool env useLndir).isSome = true) :
    (env.revListOut = "" →
      Start env gitRoot pathSpec useLndir gitRevSpec staging =
        StartResult.fatalNoShas) ∧
    (goFields env.revListOut = [] →
      (Start env gitRoot pathSpec useLndir gitRevSpec staging).isOk = false) ∧
    (∀ sha rest, goFields env.revListOut = sha :: rest →
      (Start env gitRoot pathSpec useLndir gitRevSpec staging).isOk = true ∧
      (Start env gitRoot pathSpec useLndir gitRevSpec staging).getAction =
        MatAction.checkoutRev sha) := by
  rcases start_cases env gitRoot pathSpec useLndir gitRevSpec staging with
    ⟨hnone, _⟩ | ⟨l2, a, hl2, hm, heq⟩ | ⟨l2, action, hl2, hm, heq⟩
  · rw [hnone] at hl; exact Bool.noConfusion hl
  · rw [startMaterialize_rev env gitRevSpec staging l2 h] at hm
    refine ⟨?_, ?_, ?_⟩
    · intro hout
      rw [hout] at hm
      simp only [String.length, List.length_nil] at hm
      norm_num at hm
      rw [heq, ← hm]
      rfl
    · intro _
      rw [heq, abort_not_ok]
    · intro sha rest hcons
      cases hlen : env.revListOut.length == 0 with
      | true =>
        have : goFields env.revListOut = [] :=
          goFields_of_len_zero env.revListOut (by simpa using hlen)
        rw [hcons] at this
        exact List.noConfusion this
      | false =>
        rw [hlen, hcons] at hm
        simp at hm
  · rw [startMaterialize_rev env gitRevSpec staging l2 h] at hm
    refine ⟨?_, ?_, ?_⟩
    · intro hout
      rw [hout] at hm
      simp only [String.length, List.length_nil] at hm
      norm_num at hm
      exact Except.noConfusion hm
    · intro hnil
      cases hlen : env.revListOut.length == 0 with
      | true => rw [hlen] at hm; simp at hm
      | false => rw [hlen, hnil] at hm; simp at hm
    · intro sha rest hcons
      cases hlen : env.revListOut.length == 0 with
      | true =>
        have : goFields env.revListOut = [] :=
          goFields_of_len_zero env.revListOut (by simpa using hlen)
        rw [hcons] at this
        exact List.noConfusion this
      | false =>
        rw [hlen, hcons] at hm
        simp only [if_neg] at hm
        norm_num at hm
        rw [heq, hm]
        exact ⟨rfl, rfl⟩

/-- Witness for C7: a two-commit range listing; the checkout target is its
first entry. -/
theorem c7_revspec_checkout_witness :
    (("rev" : String) ≠ "") ∧ ((lndirTool envDemo false).isSome = true) ∧
    ((envDemo.revListOut = "" →
      Start envDemo "/repo" ["*.go"] false "rev" false = StartResult.fatalNoShas) ∧
    (goFields envDemo.revListOut = [] →
      (Start envDemo "/repo" ["*.go"] false "rev" false).isOk = false) ∧
    (∀ sha rest, goFields envDemo.revListOut = sha :: rest →
      (Start envDemo "/repo" ["*.go"] false "rev" false).isOk = true ∧
      (Start envDemo "/repo" ["*.go"] false "rev" false).getAction =
        MatAction.checkoutRev sha)) :=
  ⟨by decide, by decide,
    c7_revspec_checkout envDemo "/repo" ["*.go"] false "rev" false
      (by decide) (by decide)⟩

/-- C9: every list-valued field of the workspace a successful `Start` returns
is sorted in ascending lexicographic order, so the template variables derived
from them do not depend on the completion order of the concurrent queries. -/
theorem c9_workspace_lists_sorted (env : GitEnv) (gitRoot : String)
    (pathSpec : List String) (useLndir : Bool) (gitRevSpec : String)
    (staging : Bool)
    (h : (Start env gitRoot pathSpec useLndir gitRevSpec staging).isOk = true) :
    (Start env gitRoot pathSpec useLndir gitRevSpec staging).getWs.UpdatedFiles.Sorted
      (· ≤ ·) ∧
    (Start env gitRoot pathSpec useLndir gitRevSpec staging).getWs.UpdatedDirs.Sorted
      (· ≤ ·) ∧
    (Start env gitRoot pathSpec useLndir gitRevSpec staging).getWs.UpdatedTrees.Sorted
      (· ≤ ·) ∧
    (Start env gitRoot pathSpec useLndir gitRevSpec staging).getWs.UpdatedPackages.Sorted
      (· ≤ ·) ∧
    (Start env gitRoot pathSpec useLndir gitRevSpec staging).getWs.LocallyChangedFiles.Sorted
      (· ≤ ·) := by
  obtain ⟨action, heq⟩ :=
    start_ok_elim env gitRoot pathSpec useLndir gitRevSpec staging h
  rw [heq]
  exact ⟨sortStrings_sorted _, sortStrings_sorted _, sortStrings_sorted _,
    sortStrings_sorted _, sortStrings_sorted _⟩

/-- Witness for C9 on the demo environment. -/
theorem c9_workspace_lists_sorted_witness :
    ((Start envDemo "/repo" ["*.go"] false "" false).isOk = true) ∧
    ((Start envDemo "/repo" ["*.go"] false "" false).getWs.UpdatedFiles.Sorted (· ≤ ·) ∧
    (Start envDemo "/repo" ["*.go"] false "" false).getWs.UpdatedDirs.Sorted (· ≤ ·) ∧
    (Start envDemo "/repo" ["*.go"] false "" false).getWs.UpdatedTrees.Sorted (· ≤ ·) ∧
    (Start envDemo "/repo" ["*.go"] false "" false).getWs.UpdatedPackages.Sorted (· ≤ ·) ∧
    (Start envDemo "/repo" ["*.go"] false "" false).getWs.LocallyChangedFiles.Sorted
      (· ≤ ·)) := by
  have h : (Start envDemo "/repo" ["*.go"] false "" false).isOk = true := by decide
  have hs := c9_workspace_lists_sorted envDemo "/repo" ["*.go"] false "" false h
  exact ⟨h, hs.1, hs.2.1, hs.2.2.1, hs.2.2.2.1, hs.2.2.2.2⟩

/-- C3: in a serial group, a failing child prevents every subsequent sibling
from being invoked (the group's trace is exactly the failing child's trace);
in a parallel group, a failing child never prevents a sibling from being
invoked (the group's trace always contains both children's traces). -/
theorem c3_serial_stops_parallel_continues (exec : Executor) (A B : Check)
    (e : String) (h : (runCheck exec A).2 = some e) :
    (runCheck exec (Check.serial [A, B])).1 = (runCheck exec A).1 ∧
    (runCheck exec (Check.parallel [A, B])).1 =
      (runCheck exec A).1 ++ (runCheck exec B).1 := by
  rcases hA : runCheck exec A with ⟨trA, errA⟩
  rw [hA] at h
  simp only at h
  subst h
  constructor
  · simp [runCheck, runSerial, hA]
  · simp [runCheck, runParallel, hA]

/-- Witness for C3: the first child fails, the serial sibling is skipped, the
parallel sibling still runs. -/
theorem c3_serial_stops_parallel_continues_witness :
    ((runCheck (fun c => if c == "bad" then some "boom" else none)
        (Check.leaf "a" "" "bad")).2 = some "boom") ∧
    ((runCheck (fun c => if c == "bad" then some "boom" else none)
        (Check.serial [Check.leaf "a" "" "bad", Check.leaf "b" "" "good"])).1 =
      (runCheck (fun c => if c == "bad" then some "boom" else none)
        (Check.leaf "a" "" "bad")).1 ∧
    (runCheck (fun c => if c == "bad" then some "boom" else none)
        (Check.parallel [Check.leaf "a" "" "bad", Check.leaf "b" "" "good"])).1 =
      (runCheck (fun c => if c == "bad" then some "boom" else none)
          (Check.leaf "a" "" "bad")).1 ++
      (runCheck (fun c => if c == "bad" then some "boom" else none)
          (Check.leaf "b" "" "good")).1) :=
  ⟨by decide,
    c3_serial_stops_parallel_continues (fun c => if c == "bad" then some "boom" else none)
      (Check.leaf "a" "" "bad") (Check.leaf "b" "" "good") "boom" (by decide)⟩

/-- C10: a path whose only changes are deletions is reported neither by the
updated-files query nor by the locally-changed-files query (both filter to
`ACMR`), yet the deletion does appear in the per-file path list that
directory discovery extracts from its `ACDMR` diff before the on-disk
filter. -/
theorem c10_deletions_filtered (baseChanges indexChanges : List Change)
    (p : String)
    (hbase : ∀ c ∈ baseChanges, c.path = p → c.status = 'D')
    (hidx : ∀ c ∈ indexChanges, c.path = p → c.status = 'D')
    (hdel : Change.mk 'D' p ∈ baseChanges) :
    p ∉ getUpdatedFiles baseChanges ∧
    p ∉ getLocallyChangedFiles indexChanges ∧
    p ∈ getUpdatedDirsFiles baseChanges := by
  refine ⟨?_, ?_, ?_⟩
  · intro hp
    obtain ⟨c, hcf, hcp⟩ := List.mem_map.mp hp
    obtain ⟨hc, hpred⟩ := List.mem_filter.mp hcf
    rw [hbase c hc hcp] at hpred
    exact Bool.noConfusion hpred
  · intro hp
    obtain ⟨c, hcf, hcp⟩ := List.mem_map.mp hp
    obtain ⟨hc, hpred⟩ := List.mem_filter.mp hcf
    rw [hidx c hc hcp] at hpred
    exact Bool.noConfusion hpred
  · exact List.mem_map.mpr
      ⟨Change.mk 'D' p,
        List.mem_filter.mpr ⟨hdel, (by decide : acdmrStatuses.contains 'D' = true)⟩, rfl⟩

/-- Witness for C10: `c/d.go` is only deleted; it is absent from both
`ACMR`-filtered queries but present in the `ACDMR` path list. -/
theorem c10_deletions_filtered_witness :
    (∀ c ∈ [Change.mk 'M' "a/b.go", Change.mk 'D' "c/d.go"],
      c.path = "c/d.go" → c.status = 'D') ∧
    (∀ c ∈ [Change.mk 'M' "a/b.go"], c.path = "c/d.go" → c.status = 'D') ∧
    (Change.mk 'D' "c/d.go" ∈ [Change.mk 'M' "a/b.go", Change.mk 'D' "c/d.go"]) ∧
    ("c/d.go" ∉ getUpdatedFiles [Change.mk 'M' "a/b.go", Change.mk 'D' "c/d.go"] ∧
    "c/d.go" ∉ getLocallyChangedFiles [Change.mk 'M' "a/b.go"] ∧
    "c/d.go" ∈ getUpdatedDirsFiles [Change.mk 'M' "a/b.go", Change.mk 'D' "c/d.go"]) :=
  ⟨by decide, by decide, by decide,
    c10_deletions_filtered [Change.mk 'M' "a/b.go", Change.mk 'D' "c/d.go"]
      [Change.mk 'M' "a/b.go"] "c/d.go" (by decide) (by decide) (by decide)⟩

/-- A staging environment in which `go-lndir` is installed, for exercising the
CLI flag handling of main.go. -/
def envFlag : GitEnv :=
  { goListRootOut := "ex.com/r"
    tmpDir := "/tmp/w2"
    goLndirAvailable := true
    lndirAvailable := false
    revListOut := ""
    baseChanges := []
    indexChanges := []
    packagesOut := []
    pathsOnDisk := [] }

/-- C8 (code bug, main.go line 52): supplying `-lndir` on the command line
never requests the link strategy, because `main` dereferences the pointer
returned by `flag.Bool` before `flag.Parse` has run.  The parsed flag storage
does become true, but the value handed to `Start` stays false, so a
plain-staging run with `go-lndir` installed still materializes via the full
index checkout; had the parsed value been passed, the same run would have
used the shadow-link strategy. -/
theorem c8_lndir_flag_has_no_effect :
    mainUseLndir ["-lndir"] = false ∧
    lndirFlagParsed ["-lndir"] = true ∧
    (Start envFlag "/repo" ["*.go"] (mainUseLndir ["-lndir"]) "" true).getAction =
      MatAction.fullIndexCheckout ∧
    (Start envFlag "/repo" ["*.go"] (lndirFlagParsed ["-lndir"]) "" true).getAction =
      MatAction.lndirShadow "go-lndir" := by
  exact ⟨rfl, by decide, rfl, by decide⟩

end Gogitix
